import Mathlib

/-!
Verification of the HintAI backend core: the structural code analyzer
(backend/parser/code_analyzer.py), the embedding similarity ranker
(backend/rag/embedder.py), and the hint retrieval engine
(backend/api/main.py), shallowly embedded in Lean.

Modelling conventions:
* The Python ast node universe is modelled by one inductive type `Node`
  covering exactly the node kinds the analyzer inspects or that appear in
  the inputs of interest (loops, conditionals, assignments, names, calls,
  attribute access, subscripts, dict displays, binary operations,
  comparisons).  ast.parse is an external deterministic function, so an
  analyzer input is modelled as the parse outcome:
  an `Except String (List Node)` value (error message or module body).
* Python dicts with a fixed key set are modelled as structures whose
  fields are `Option`-valued when a key can be absent; reading a possibly
  absent key goes through `dictGet`, which returns a KeyError as an
  `Except.error`, mirroring a raised KeyError.
* Floating point numbers are idealized as real numbers.  In this
  idealization division by zero is total (x / 0 = 0), standing in for the
  NaN the numpy code produces.
* Python list.sort with a key function and reverse=True is a stable
  descending sort; it is modelled by the stable descending insertion sort
  `sortDesc`, which computes the same function on every input.
-/

namespace HintAI

/-- Model of the Python ast node universe, restricted to the node kinds the
analyzer distinguishes plus those needed to represent the concrete
programs appearing in the claims.  Loops carry their body and orelse
statement lists exactly as ast.For and ast.While do. -/
inductive Node where
  | forS (target iter : Node) (body orelse : List Node)
  | whileS (test : Node) (body orelse : List Node)
  | ifS (test : Node) (body orelse : List Node)
  | assign (target value : Node)
  | ret (value : Node)
  | exprS (value : Node)
  | passS
  | name (id : String)
  | constE
  | dictE (keys vals : List Node)
  | call (func : Node) (args : List Node)
  | attrE (value : Node) (attrName : String)
  | subscript (value index : Node)
  | binOp (left right : Node)
  | compare (left : Node) (comparators : List Node)
deriving Repr

/-- The mutable attributes of a CodeAnalyzer instance
(loop_count, nested_loop_depth, current_depth, data_structures_used,
functions_called), as set up in CodeAnalyzer.__init__ and _reset. -/
structure AState where
  loop_count : Nat
  nested_loop_depth : Nat
  current_depth : Nat
  data_structures_used : List String
  functions_called : List String
deriving Repr, DecidableEq

/-- The state written by CodeAnalyzer._reset: all counters zero, both
collections empty. -/
def resetState : AState :=
  { loop_count := 0, nested_loop_depth := 0, current_depth := 0,
    data_structures_used := [], functions_called := [] }

/-- Python set insertion observed through eventual list conversion:
adds the element only if it is not already present. -/
def setInsert (s : List String) (x : String) : List String :=
  if x ∈ s then s else s ++ [x]

/-- The fixed identifier allow-list from _walk_tree. -/
def dsAllowList : List String := ["dict", "set", "list", "deque", "heap"]

/-- Model of CodeAnalyzer._check_nested_loops: starting from the body of a
loop node, find the first immediately contained loop statement, descend
into its own body, and count how many loops the chain contains.  The
Python loop over current.body takes the first item that is an ast.For or
ast.While, increments depth, and continues from that item; if no such item
exists the walk stops. -/
def chainAux : List Node → Nat
  | [] => 0
  | Node.forS _ _ body _ :: _ => 1 + chainAux body
  | Node.whileS _ body _ :: _ => 1 + chainAux body
  | _ :: rest => chainAux rest

mutual

/-- Model of the per-node work of CodeAnalyzer._walk_tree, which iterates
ast.walk over every node of the tree: ast.For increments loop_count and
runs _check_nested_loops from its body; ast.While increments loop_count;
ast.Name checks the identifier against the allow-list; an ast.Call whose
callee is an attribute access records the attribute name.  The aggregates
(count, maximum, set) are order-insensitive, so visiting in structural
preorder instead of the breadth-first order of ast.walk computes the same
state. -/
def walk (st : AState) : Node → AState
  | Node.forS target iter body orelse =>
      let st := { st with
        loop_count := st.loop_count + 1,
        nested_loop_depth := max st.nested_loop_depth (chainAux body) }
      walkList (walkList (walk (walk st target) iter) body) orelse
  | Node.whileS test body orelse =>
      let st := { st with loop_count := st.loop_count + 1 }
      walkList (walkList (walk st test) body) orelse
  | Node.ifS test body orelse =>
      walkList (walkList (walk st test) body) orelse
  | Node.assign target value => walk (walk st target) value
  | Node.ret value => walk st value
  | Node.exprS value => walk st value
  | Node.passS => st
  | Node.name id =>
      if id ∈ dsAllowList then
        { st with data_structures_used := setInsert st.data_structures_used id }
      else st
  | Node.constE => st
  | Node.dictE keys vals => walkList (walkList st keys) vals
  | Node.call func args =>
      let st := match func with
        | Node.attrE _ a => { st with functions_called := st.functions_called ++ [a] }
        | _ => st
      walkList (walk st func) args
  | Node.attrE value _ => walk st value
  | Node.subscript value index => walk (walk st value) index
  | Node.binOp left right => walk (walk st left) right
  | Node.compare left comparators => walkList (walk st left) comparators

/-- Walks a statement or expression list, threading the analyzer state. -/
def walkList (st : AState) : List Node → AState
  | [] => st
  | n :: ns => walkList (walk st n) ns

end

/-- Model of CodeAnalyzer._detect_pattern: first matching rule wins. -/
def detectPattern (st : AState) : String :=
  if st.nested_loop_depth ≥ 2 then "nested_loops"
  else if "dict" ∈ st.data_structures_used ∨ "set" ∈ st.data_structures_used then "hash_map"
  else if st.loop_count == 1 then "single_pass"
  else if st.loop_count == 0 then "no_iteration"
  else "unknown"

/-- Model of CodeAnalyzer._estimate_complexity. -/
def estimateComplexity (st : AState) : String :=
  if st.nested_loop_depth ≥ 3 then "O(n³) or worse"
  else if st.nested_loop_depth == 2 then "O(n²)"
  else if st.loop_count == 1 then "O(n)"
  else "O(1)"

/-- The dictionary returned by CodeAnalyzer.analyze.  On the success path
the keys loop_count, nested_loop_depth, data_structures, pattern and
complexity_estimate are present and error is absent; on the SyntaxError
path only error and pattern are present.  Absence of a key is modelled by
a none field. -/
structure AResult where
  loop_count : Option Nat
  nested_loop_depth : Option Nat
  data_structures : Option (List String)
  pattern : String
  complexity_estimate : Option String
  error : Option String
deriving Repr, DecidableEq

/-- Reading a key from a dict that may lack it: a present value is
returned, an absent one raises KeyError.  Used wherever the Python code
subscripts one of the modelled dicts. -/
def dictGet {α : Type} (v : Option α) (key : String) : Except String α :=
  match v with
  | some x => Except.ok x
  | none => Except.error ("KeyError: " ++ key)

/-- True exactly on the error branch of an Except value. -/
def isErr {ε α : Type} : Except ε α → Bool
  | Except.error _ => true
  | Except.ok _ => false

/-- Model of CodeAnalyzer.analyze.  The incoming state is the current
instance state; _reset discards it before any work, so the analysis reads
only the parse outcome.  ast.parse is external and deterministic, so the
input is its outcome: a syntax error message or the module body.  Returns
the result dictionary together with the instance state after the call. -/
def CodeAnalyzer.analyze (st : AState) (code : Except String (List Node)) :
    AResult × AState :=
  let _ := st
  let st0 := resetState
  match code with
  | Except.error e =>
      ({ loop_count := none, nested_loop_depth := none, data_structures := none,
         pattern := "invalid", complexity_estimate := none,
         error := some ("Syntax error in code: " ++ e) }, st0)
  | Except.ok body =>
      let st1 := walkList st0 body
      ({ loop_count := some st1.loop_count,
         nested_loop_depth := some st1.nested_loop_depth,
         data_structures := some st1.data_structures_used,
         pattern := detectPattern st1,
         complexity_estimate := some (estimateComplexity st1),
         error := none }, st1)

/-- Module body of the submission
for i in range(n):
    for j in range(n):
        pass
containing exactly two directly nested for loops. -/
def pyNestedTwo : List Node :=
  [Node.forS (Node.name "i") (Node.call (Node.name "range") [Node.name "n"])
    [Node.forS (Node.name "j") (Node.call (Node.name "range") [Node.name "n"])
      [Node.passS] []] []]

/-- Module body of the complement-lookup submission
seen = \x7b\x7d
for num in nums:
    complement = target - num
    if complement in seen:
        pass
    seen[num] = 1
which builds a mapping and checks membership inside a single loop. -/
def pyTwoSumHashMap : List Node :=
  [Node.assign (Node.name "seen") (Node.dictE [] []),
   Node.forS (Node.name "num") (Node.name "nums")
     [Node.assign (Node.name "complement") (Node.binOp (Node.name "target") (Node.name "num")),
      Node.ifS (Node.compare (Node.name "complement") [Node.name "seen"]) [Node.passS] [],
      Node.assign (Node.subscript (Node.name "seen") (Node.name "num")) Node.constE] []]

/-- An embedding vector: the idealized model of a numpy float array. -/
abbrev Vec := List ℝ

/-- Inner product of two vectors, the model of np.dot on equal-length
one-dimensional arrays. -/
noncomputable def dotV (a b : Vec) : ℝ := (List.zipWith (fun x y => x * y) a b).sum

/-- Model of np.linalg.norm: the square root of the sum of squares. -/
noncomputable def npNorm (v : Vec) : ℝ := Real.sqrt ((v.map fun x => x * x).sum)

/-- Model of CodeEmbedder.similarity: each vector is divided by its own
norm, then the dot product of the normalized vectors is returned.  There
is no guard on the norms; a zero norm flows into the division.  In this
real-number idealization division by zero is total and yields zero where
the numpy code yields NaN; in both settings the call returns a value and
raises no error. -/
noncomputable def CodeEmbedder.similarity (vec1 vec2 : Vec) : ℝ :=
  dotV (vec1.map fun x => x / npNorm vec1) (vec2.map fun x => x / npNorm vec2)

/-- The similarities list built by the loop in find_most_similar:
one (index, similarity) pair per candidate, indices counting up from the
given start. -/
noncomputable def simsAux (query : Vec) : Nat → List Vec → List (Nat × ℝ)
  | _, [] => []
  | i, c :: cs => (i, CodeEmbedder.similarity query c) :: simsAux query (i + 1) cs

/-- Insertion step of the stable descending sort: the new element goes in
front of the first already placed element whose score does not exceed its
own, hence after every earlier element with a strictly larger score and
before every later element with an equal score. -/
noncomputable def insertD (x : Nat × ℝ) : List (Nat × ℝ) → List (Nat × ℝ)
  | [] => [x]
  | y :: ys => if y.2 ≤ x.2 then x :: y :: ys else y :: insertD x ys

/-- Stable descending sort by score, the model of
similarities.sort(key score, reverse true) in find_most_similar: Python
list.sort is stable, and a stable descending sort is a unique function of
its input, computed here by stable insertion. -/
noncomputable def sortDesc : List (Nat × ℝ) → List (Nat × ℝ)
  | [] => []
  | x :: xs => insertD x (sortDesc xs)

/-- Python slice lst up to k for an arbitrary integer k: a nonnegative
stop takes the first k elements, a negative stop counts from the end. -/
def pySlice {α : Type} (l : List α) (k : Int) : List α :=
  if 0 ≤ k then l.take k.toNat else l.take ((l.length : Int) + k).toNat

/-- Model of CodeEmbedder.find_most_similar: score every candidate against
the query, sort stably by descending score, return the top_k slice.
No input validation of any kind is performed. -/
noncomputable def CodeEmbedder.find_most_similar (query_vec : Vec)
    (candidate_vecs : List Vec) (top_k : Int) : List (Nat × ℝ) :=
  pySlice (sortDesc (simsAux query_vec 0 candidate_vecs)) top_k

/-- The ranking order promised for the output of find_most_similar:
earlier entries have a strictly larger score, or an equal score and a
strictly smaller original index. -/
def rankOrder (a b : Nat × ℝ) : Prop :=
  b.2 < a.2 ∨ (a.2 = b.2 ∧ a.1 < b.1)

/-- Python str.join with a separator. -/
def pyJoin (sep : String) : List String → String
  | [] => ""
  | [x] => x
  | x :: xs => x ++ sep ++ pyJoin sep xs

/-- Python truthiness of an optional string: None and the empty string are
falsy, every other string is truthy. -/
def pyTruthy : Option String → Bool
  | none => false
  | some s => decide (s ≠ "")

/-- The combined text built by CodeEmbedder.embed_code_with_context: the
parts list starts with the code, a truthy problem appends a Problem line,
a truthy pattern appends a Pattern line, and the parts are joined with
newlines. -/
def combinedText (code : String) (problem pattern : Option String) : String :=
  let parts := [code]
  let parts := if pyTruthy problem then parts ++ ["Problem: " ++ problem.getD ""] else parts
  let parts := if pyTruthy pattern then parts ++ ["Pattern: " ++ pattern.getD ""] else parts
  pyJoin "\n" parts

/-- Model of CodeEmbedder.embed_code_with_context: the embedding function
is applied to exactly the combined text. -/
def CodeEmbedder.embed_code_with_context (embedF : String → Vec) (code : String)
    (problem pattern : Option String) : Vec :=
  embedF (combinedText code problem pattern)

/-- One line of the augmentation convention as the specification words it:
a known (present, nonempty) value contributes a newline plus a tagged
line, an absent value contributes nothing. -/
def optLine (tag : String) : Option String → String
  | none => ""
  | some s => if s = "" then "" else "\n" ++ (tag ++ s)

/-- The context-augmentation convention as the specification words it:
the raw code, followed by the optional Problem line and the optional
Pattern line, joined by newlines, absent values contributing no line. -/
def specContextText (code : String) (problem pattern : Option String) : String :=
  code ++ optLine "Problem: " problem ++ optLine "Pattern: " pattern

/-- A corpus record as a Python dict with the keys of SAMPLE_SOLUTIONS;
a missing key is modelled by a none field. -/
structure SolRec where
  problem : Option String
  approach : Option String
  code : Option String
  time_complexity : Option String
  space_complexity : Option String
  hints : Option (List String)
deriving Repr, DecidableEq

/-- Model of the corpus-building loop of HintAIEngine._initialize: for
each record in order, read its code, problem and approach keys (in the
evaluation order of the call), embed the combined text, and collect the
embedding.  There is no per-record error handling: the first missing key
raises a KeyError that aborts the whole loop.  Returns the outcome
together with the list of texts passed to the embedding function before
the stop. -/
def buildCorpus (embedF : String → Vec) : List SolRec → Except String (List Vec) × List String
  | [] => (Except.ok [], [])
  | s :: rest =>
    match s.code with
    | none => (Except.error "KeyError: code", [])
    | some c =>
      match s.problem with
      | none => (Except.error "KeyError: problem", [])
      | some p =>
        match s.approach with
        | none => (Except.error "KeyError: approach", [])
        | some a =>
          let text := combinedText c (some p) (some a)
          let v := CodeEmbedder.embed_code_with_context embedF c (some p) (some a)
          match buildCorpus embedF rest with
          | (Except.ok vs, ts) => (Except.ok (v :: vs), text :: ts)
          | (Except.error e, ts) => (Except.error e, text :: ts)

/-- The state of HintAIEngine after startup: the corpus records and their
parallel precomputed embeddings. -/
structure Engine where
  solutions : List SolRec
  solution_embeddings : List Vec

/-- A submission: the raw text together with the outcome of parsing it,
ast.parse being an external deterministic function. -/
structure UserCode where
  text : String
  parsed : Except String (List Node)

/-- Effect log of one get_hint call: the texts passed to the embedding
function and the number of similarity searches performed. -/
structure Trace where
  embedded : List String
  searches : Nat
deriving Repr, DecidableEq

/-- The analysis sub-dictionary of the get_hint result. -/
structure AnalysisOut where
  pattern : String
  complexity : String
  loop_count : Nat
deriving Repr, DecidableEq

/-- The matched_solution sub-dictionary of the get_hint result. -/
structure MatchedSolution where
  problem : String
  approach : String
  time_complexity : String
  space_complexity : String
deriving Repr, DecidableEq

/-- One entry of the top_matches list of the get_hint result. -/
structure TopMatch where
  problem : String
  approach : String
  similarity : ℝ

/-- The full get_hint result dictionary. -/
structure HintResult where
  analysis : AnalysisOut
  similarity_score : ℝ
  matched_solution : MatchedSolution
  hints : List String
  top_matches : List TopMatch

/-- Reading an index from a Python list: out of range raises IndexError. -/
def listGet {α : Type} (l : List α) (i : Nat) : Except String α :=
  match l[i]? with
  | some x => Except.ok x
  | none => Except.error "IndexError: list index out of range"

/-- Model of HintAIEngine.get_hint.  Step 1 analyzes the submission
(analyze resets the shared analyzer instance, so its persistent state is
irrelevant to the result); step 2 embeds the submission text with the
problem name and the detected pattern; step 3 ranks the corpus embeddings
with top_k three; step 4 reads the best match and assembles the result
dictionary, reading each dict key in the evaluation order of the source.
There is no special handling of an invalid analysis: the invalid path is
reached only through the KeyError raised when the result dictionary reads
the absent complexity_estimate key, after embedding and search have
already happened.  An exception is modelled as an error outcome; the
trace reports the embedding and search effects of the call. -/
noncomputable def HintAIEngine.get_hint (embedF : String → Vec) (eng : Engine)
    (user : UserCode) (problem_name : Option String) :
    Except String HintResult × Trace :=
  let analysis := (CodeAnalyzer.analyze resetState user.parsed).1
  let user_embedding :=
    CodeEmbedder.embed_code_with_context embedF user.text problem_name (some analysis.pattern)
  let matchesL :=
    CodeEmbedder.find_most_similar user_embedding eng.solution_embeddings 3
  let tr : Trace :=
    { embedded := [combinedText user.text problem_name (some analysis.pattern)],
      searches := 1 }
  let res : Except String HintResult := do
    let m0 ← listGet matchesL 0
    let best_solution ← listGet eng.solutions m0.1
    let complexity ← dictGet analysis.complexity_estimate "complexity_estimate"
    let lc ← dictGet analysis.loop_count "loop_count"
    let bproblem ← dictGet best_solution.problem "problem"
    let bapproach ← dictGet best_solution.approach "approach"
    let btime ← dictGet best_solution.time_complexity "time_complexity"
    let bspace ← dictGet best_solution.space_complexity "space_complexity"
    let hs ← dictGet best_solution.hints "hints"
    let top ← matchesL.mapM fun m => do
      let s ← listGet eng.solutions m.1
      let mp ← dictGet s.problem "problem"
      let ma ← dictGet s.approach "approach"
      pure { problem := mp, approach := ma, similarity := m.2 : TopMatch }
    pure { analysis := { pattern := analysis.pattern, complexity := complexity,
                         loop_count := lc },
           similarity_score := m0.2,
           matched_solution := { problem := bproblem, approach := bapproach,
                                 time_complexity := btime, space_complexity := bspace },
           hints := hs, top_matches := top }
  (res, tr)

/-- Claim C1: on an input with exactly two directly nested for loops the
analyzer reports nested_loop_depth 1 (not 2) and pattern unknown (not
nested_loops): _check_nested_loops starts its counter at 0 and counts only
the loops strictly below the outer one, so a chain of k nested loops
yields depth k - 1 and the nested_loops rule fires only from k = 3 on.
This contradicts the depth numbering and the expected pattern stated in
the docstrings of analyze and _check_nested_loops. -/
theorem claim_C1_nested_depth_at_failing_input :
    (CodeAnalyzer.analyze resetState (Except.ok pyNestedTwo)).1 =
      { loop_count := some 2, nested_loop_depth := some 1,
        data_structures := some [], pattern := "unknown",
        complexity_estimate := some "O(1)", error := none } := by
  simp [CodeAnalyzer.analyze, pyNestedTwo, walkList, walk, chainAux, resetState,
    detectPattern, estimateComplexity, dsAllowList, setInsert]

/-- Claim C3: on the complement-lookup submission (mapping built with a
dict display, membership test inside one loop) the analyzer returns
pattern single_pass, not hash_map: the data-structure detector only reacts
to identifiers literally named dict, set, list, deque or heap, and a dict
display produces no such identifier.  This contradicts the hash-map demo
input shipped at the bottom of code_analyzer.py. -/
theorem claim_C3_hash_map_at_failing_input :
    (CodeAnalyzer.analyze resetState (Except.ok pyTwoSumHashMap)).1.pattern
        = "single_pass" ∧
    (CodeAnalyzer.analyze resetState (Except.ok pyTwoSumHashMap)).1.data_structures
        = some [] := by
  constructor <;>
    simp [CodeAnalyzer.analyze, pyTwoSumHashMap, walkList, walk, chainAux, resetState,
      detectPattern, estimateComplexity, dsAllowList, setInsert]

/-- Claim C9: analyze is a pure function of the parse outcome.  The result
does not depend on the incoming instance state, and running analyze twice
in a row on the same input (the second call starting from the state the
first call left behind) returns the same result dictionary, because
_reset reinitializes every attribute the analysis reads or writes. -/
theorem claim_C9_analyze_pure (st1 st2 : AState) (src : Except String (List Node)) :
    (CodeAnalyzer.analyze st1 src).1 = (CodeAnalyzer.analyze st2 src).1 ∧
    (CodeAnalyzer.analyze (CodeAnalyzer.analyze st1 src).2 src).1 =
      (CodeAnalyzer.analyze st1 src).1 := by
  exact ⟨rfl, rfl⟩

/-- Claim C10: on a parse failure the analyze result carries exactly the
error message and pattern invalid; the keys loop_count, nested_loop_depth,
data_structures and complexity_estimate are absent, so a caller
subscripting any of them gets a KeyError instead of a default. -/
theorem claim_C10_invalid_result_fields (st : AState) (msg : String) :
    (CodeAnalyzer.analyze st (Except.error msg)).1 =
      { loop_count := none, nested_loop_depth := none, data_structures := none,
        pattern := "invalid", complexity_estimate := none,
        error := some ("Syntax error in code: " ++ msg) } ∧
    isErr (dictGet (CodeAnalyzer.analyze st (Except.error msg)).1.loop_count
        "loop_count") = true ∧
    isErr (dictGet (CodeAnalyzer.analyze st (Except.error msg)).1.nested_loop_depth
        "nested_loop_depth") = true ∧
    isErr (dictGet (CodeAnalyzer.analyze st (Except.error msg)).1.data_structures
        "data_structures") = true ∧
    isErr (dictGet (CodeAnalyzer.analyze st (Except.error msg)).1.complexity_estimate
        "complexity_estimate") = true := by
  exact ⟨rfl, rfl, rfl, rfl, rfl⟩

/-- Dot product against a left vector of zeros is zero. -/
theorem dotV_zero_left (v w : Vec) : dotV (v.map fun _ => (0 : ℝ)) w = 0 := by
  induction v generalizing w with
  | nil => simp [dotV]
  | cons a v ih =>
    cases w with
    | nil => simp [dotV]
    | cons b w => simpa [dotV] using ih w

/-- Dot product against a right vector of zeros is zero. -/
theorem dotV_zero_right (v w : Vec) : dotV v (w.map fun _ => (0 : ℝ)) = 0 := by
  induction v generalizing w with
  | nil => simp [dotV]
  | cons a v ih =>
    cases w with
    | nil => simp [dotV]
    | cons b w => simpa [dotV] using ih w

/-- Claim C4, counterexample to the claimed rejection: at the concrete
zero vector the similarity computation returns a score instead of an
error; there is no error channel in the function at all.  The numpy code
produces NaN here; the total-division idealization produces 0. -/
theorem claim_C4_counterexample :
    CodeEmbedder.similarity [0, 0] [3, 4] = 0 := by
  simp [CodeEmbedder.similarity, dotV]

/-- Claim C4 as amended: a zero-norm input on either side is not
rejected; the division by the zero norm is performed and the call
silently returns a score (0 in the total-division model, NaN in the
numpy implementation), with no error reported. -/
theorem claim_C4_amended (v1 v2 : Vec) (h : npNorm v1 = 0 ∨ npNorm v2 = 0) :
    CodeEmbedder.similarity v1 v2 = 0 := by
  rcases h with h | h
  · have : (v1.map fun x => x / npNorm v1) = v1.map fun _ => (0 : ℝ) := by
      simp [h]
    rw [CodeEmbedder.similarity, this, dotV_zero_left]
  · have : (v2.map fun x => x / npNorm v2) = v2.map fun _ => (0 : ℝ) := by
      simp [h]
    rw [CodeEmbedder.similarity, this, dotV_zero_right]

/-- Claim C4 amended, witness at a concrete input: the singleton zero
vector has norm zero and its similarity against the vector with entry
five is silently computed as zero. -/
theorem claim_C4_amended_witness :
    npNorm [0] = 0 ∧ CodeEmbedder.similarity [0] [5] = 0 :=
  ⟨by simp [npNorm], claim_C4_amended [0] [5] (Or.inl (by simp [npNorm]))⟩

/-- Claim C5, counterexample to the claimed configuration error: called
with top_k zero on a nonempty candidate list, find_most_similar reports
nothing and just returns the empty list, the value of the slice up to
zero. -/
theorem claim_C5_counterexample :
    CodeEmbedder.find_most_similar [1] [[1]] 0 = [] := by
  simp [CodeEmbedder.find_most_similar, pySlice]

/-- Claim C5 as amended: top_k equal to zero is not a reported
configuration error; the function silently returns the empty list for any
query and candidates (and a negative top_k likewise silently truncates
from the end).  The second half of the claim is as stated: an empty
candidate list yields the empty list for every top_k without erroring. -/
theorem claim_C5_amended :
    (∀ q cs, CodeEmbedder.find_most_similar q cs 0 = []) ∧
    (∀ q k, CodeEmbedder.find_most_similar q [] k = []) := by
  constructor
  · intro q cs
    simp [CodeEmbedder.find_most_similar, pySlice]
  · intro q k
    simp [CodeEmbedder.find_most_similar, simsAux, sortDesc, pySlice]

theorem mem_insertD {x y : Nat × ℝ} {l : List (Nat × ℝ)} :
    y ∈ insertD x l ↔ y = x ∨ y ∈ l := by
  induction l with
  | nil => simp [insertD]
  | cons z zs ih =>
    by_cases hz : z.2 ≤ x.2
    · simp [insertD, hz]
    · simp only [insertD, if_neg hz, List.mem_cons, ih]
      tauto

theorem length_insertD (x : Nat × ℝ) (l : List (Nat × ℝ)) :
    (insertD x l).length = l.length + 1 := by
  induction l with
  | nil => simp [insertD]
  | cons z zs ih =>
    by_cases hz : z.2 ≤ x.2 <;> simp [insertD, hz, ih]

theorem mem_sortDesc {y : Nat × ℝ} {l : List (Nat × ℝ)} :
    y ∈ sortDesc l ↔ y ∈ l := by
  induction l with
  | nil => simp [sortDesc]
  | cons z zs ih => simp [sortDesc, mem_insertD, ih]

theorem length_sortDesc (l : List (Nat × ℝ)) :
    (sortDesc l).length = l.length := by
  induction l with
  | nil => simp [sortDesc]
  | cons z zs ih => simp [sortDesc, length_insertD, ih]

/-- Inserting an element whose original index is below every index already
present preserves the ranking order of the sorted list. -/
theorem pairwise_insertD {x : Nat × ℝ} {l : List (Nat × ℝ)}
    (hl : l.Pairwise rankOrder) (hx : ∀ y ∈ l, x.1 < y.1) :
    (insertD x l).Pairwise rankOrder := by
  induction l with
  | nil => simp [insertD, rankOrder]
  | cons y ys ih =>
    rcases List.pairwise_cons.mp hl with ⟨hy_all, hys⟩
    by_cases hy : y.2 ≤ x.2
    · rw [insertD, if_pos hy]
      refine List.pairwise_cons.mpr ⟨?_, hl⟩
      intro z hz
      rcases List.mem_cons.mp hz with rfl | hz_ys
      · rcases lt_or_eq_of_le hy with hlt | heq
        · exact Or.inl hlt
        · exact Or.inr ⟨heq.symm, hx z (List.mem_cons_self z ys)⟩
      · have hzy : z.2 ≤ y.2 := by
          rcases hy_all z hz_ys with hlt | ⟨heq, _⟩
          · exact le_of_lt hlt
          · exact le_of_eq heq.symm
        rcases lt_or_eq_of_le (le_trans hzy hy) with hlt | heq
        · exact Or.inl hlt
        · exact Or.inr ⟨heq.symm, hx z (List.mem_cons_of_mem y hz_ys)⟩
    · rw [insertD, if_neg hy]
      refine List.pairwise_cons.mpr ⟨?_, ?_⟩
      · intro z hz
        rcases mem_insertD.mp hz with rfl | hz_ys
        · exact Or.inl (lt_of_not_le hy)
        · exact hy_all z hz_ys
      · exact ih hys fun z hz => hx z (List.mem_cons_of_mem y hz)

/-- Sorting a list whose original indices are strictly increasing yields a
list ordered by rankOrder: descending scores, ties by ascending index. -/
theorem pairwise_sortDesc {l : List (Nat × ℝ)}
    (h : l.Pairwise fun a b => a.1 < b.1) :
    (sortDesc l).Pairwise rankOrder := by
  induction l with
  | nil => simp [sortDesc]
  | cons x xs ih =>
    rcases List.pairwise_cons.mp h with ⟨hx_all, hxs⟩
    rw [sortDesc]
    exact pairwise_insertD (ih hxs) fun y hy => hx_all y (mem_sortDesc.mp hy)

theorem length_simsAux (q : Vec) (i : Nat) (cs : List Vec) :
    (simsAux q i cs).length = cs.length := by
  induction cs generalizing i with
  | nil => simp [simsAux]
  | cons c cs ih => simp [simsAux, ih]

/-- Every entry of the similarities list is the pair of an in-range offset
from the start index and the similarity of the query against the
candidate at that offset. -/
theorem mem_simsAux {q : Vec} {i : Nat} {cs : List Vec} {p : Nat × ℝ}
    (h : p ∈ simsAux q i cs) :
    ∃ j, j < cs.length ∧ p = (i + j, CodeEmbedder.similarity q (cs.getD j [])) := by
  induction cs generalizing i with
  | nil => simp [simsAux] at h
  | cons c cs ih =>
    rw [simsAux] at h
    rcases List.mem_cons.mp h with rfl | htail
    · exact ⟨0, by simp, by simp⟩
    · rcases ih htail with ⟨j, hj, hp⟩
      refine ⟨j + 1, by simp only [List.length_cons]; omega, ?_⟩
      rw [hp]
      congr 1
      omega

/-- The similarities list carries strictly increasing original indices. -/
theorem pairwise_simsAux (q : Vec) (i : Nat) (cs : List Vec) :
    (simsAux q i cs).Pairwise fun a b => a.1 < b.1 := by
  induction cs generalizing i with
  | nil => simp [simsAux]
  | cons c cs ih =>
    rw [simsAux]
    refine List.pairwise_cons.mpr ⟨?_, ih (i + 1)⟩
    intro p hp
    rcases mem_simsAux hp with ⟨j, _, rfl⟩
    simp; omega

/-- Claim C6: for a positive top_k, find_most_similar returns a list of
length min(top_k, number of candidates) whose entries pair an in-range
original index with the cosine similarity of the query against the
candidate at that index, ordered by strictly descending score with ties
in strictly ascending original-index order (the stable descending sort
contract). -/
theorem claim_C6_rank_contract (q : Vec) (cs : List Vec) (k : Int) (hk : 0 < k) :
    (CodeEmbedder.find_most_similar q cs k).length = min k.toNat cs.length ∧
    (∀ p ∈ CodeEmbedder.find_most_similar q cs k,
        p.1 < cs.length ∧ p.2 = CodeEmbedder.similarity q (cs.getD p.1 [])) ∧
    (CodeEmbedder.find_most_similar q cs k).Pairwise rankOrder := by
  have hk0 : (0 : Int) ≤ k := le_of_lt hk
  have hdef : CodeEmbedder.find_most_similar q cs k
      = (sortDesc (simsAux q 0 cs)).take k.toNat := by
    rw [CodeEmbedder.find_most_similar, pySlice, if_pos hk0]
  refine ⟨?_, ?_, ?_⟩
  · rw [hdef, List.length_take, length_sortDesc, length_simsAux]
  · intro p hp
    rw [hdef] at hp
    have hp2 : p ∈ sortDesc (simsAux q 0 cs) :=
      (List.take_sublist _ _).subset hp
    rcases mem_simsAux (mem_sortDesc.mp hp2) with ⟨j, hj, rfl⟩
    refine ⟨?_, ?_⟩ <;> simp [hj]
  · rw [hdef]
    exact List.Pairwise.sublist (List.take_sublist _ _)
      (pairwise_sortDesc (pairwise_simsAux q 0 cs))

/-- Claim C6, witness at a concrete input: top_k two over two candidate
vectors satisfies the positivity hypothesis and the full ranking
contract. -/
theorem claim_C6_rank_contract_witness :
    (0 : Int) < 2 ∧
    ((CodeEmbedder.find_most_similar [1] [[1], [2]] 2).length = min (2 : Int).toNat 2 ∧
    (∀ p ∈ CodeEmbedder.find_most_similar [1] [[1], [2]] 2,
        p.1 < 2 ∧ p.2 = CodeEmbedder.similarity [1] ([[1], [2]].getD p.1 [])) ∧
    (CodeEmbedder.find_most_similar [1] [[1], [2]] 2).Pairwise rankOrder) :=
  ⟨by decide, claim_C6_rank_contract [1] [[1], [2]] 2 (by decide)⟩

/-- The source joining convention and the specification wording of the
context augmentation agree on every input: code alone when both context
values are absent or empty, one tagged line per known value otherwise. -/
theorem combinedText_eq_spec (code : String) (problem pattern : Option String) :
    combinedText code problem pattern = specContextText code problem pattern := by
  rcases problem with _ | p
  · rcases pattern with _ | q
    · simp [combinedText, specContextText, pyTruthy, optLine, pyJoin]
    · by_cases hq : q = "" <;>
        simp [combinedText, specContextText, pyTruthy, optLine, pyJoin, hq,
          String.append_assoc]
  · rcases pattern with _ | q
    · by_cases hp : p = "" <;>
        simp [combinedText, specContextText, pyTruthy, optLine, pyJoin, hp,
          String.append_assoc]
    · by_cases hp : p = "" <;> by_cases hq : q = "" <;>
        simp [combinedText, specContextText, pyTruthy, optLine, pyJoin, hp, hq,
          String.append_assoc]

/-- On a successful corpus build the texts passed to the embedding
function are exactly the per-record context texts of the specification
convention, in corpus order. -/
theorem buildCorpus_texts (embedF : String → Vec) (recs : List SolRec) :
    ∀ (vs : List Vec) (tr : List String),
      buildCorpus embedF recs = (Except.ok vs, tr) →
      tr = recs.map fun r => specContextText (r.code.getD "") r.problem r.approach := by
  induction recs with
  | nil =>
    intro vs tr h
    rw [buildCorpus] at h
    injection h with h1 h2
    simp [← h2]
  | cons s rest ih =>
    intro vs tr h
    rw [buildCorpus] at h
    rcases hc : s.code with _ | c <;> rw [hc] at h
    · simp at h
    · rcases hp : s.problem with _ | p <;> rw [hp] at h
      · simp at h
      · rcases ha : s.approach with _ | a <;> rw [ha] at h
        · simp at h
        · rcases hb : buildCorpus embedF rest with ⟨resr, ts⟩
          rw [hb] at h
          rcases resr with e | vs'
          · simp at h
          · injection h with h1 h2
            rw [← h2, List.map_cons, hc, hp, ha]
            simp only [Option.getD_some]
            rw [combinedText_eq_spec]
            exact congrArg _ (ih vs' ts (by rw [hb]))

/-- Claim C7: the text handed to the embedding function is always the raw
code followed by the optional Problem line and the optional Pattern line,
joined by newlines, with absent values contributing no line; the corpus
build applies this convention to every record (code, problem, approach
fields), and a get_hint call applies the identical convention to the
submission text, the optional problem name and the detected pattern. -/
theorem claim_C7_context_convention :
    (∀ (embedF : String → Vec) (code : String) (problem pattern : Option String),
        CodeEmbedder.embed_code_with_context embedF code problem pattern
          = embedF (specContextText code problem pattern)) ∧
    (∀ (embedF : String → Vec) (recs : List SolRec) (vs : List Vec) (tr : List String),
        buildCorpus embedF recs = (Except.ok vs, tr) →
        tr = recs.map fun r => specContextText (r.code.getD "") r.problem r.approach) ∧
    (∀ (embedF : String → Vec) (eng : Engine) (user : UserCode) (pn : Option String),
        (HintAIEngine.get_hint embedF eng user pn).2.embedded
          = [specContextText user.text pn
              (some ((CodeAnalyzer.analyze resetState user.parsed).1.pattern))]) := by
  refine ⟨?_, ?_, ?_⟩
  · intro embedF code problem pattern
    rw [CodeEmbedder.embed_code_with_context, combinedText_eq_spec]
  · exact buildCorpus_texts
  · intro embedF eng user pn
    simp only [HintAIEngine.get_hint]
    rw [combinedText_eq_spec]

/-- Claim C7, witness at a concrete input: a one-record corpus build
succeeds, embeds exactly one text, and that text list equals the mapped
specification convention, discharging the success hypothesis concretely. -/
theorem claim_C7_context_convention_witness :
    buildCorpus (fun _ => ([] : Vec))
        [⟨some "Two Sum", some "hash_map", some "code text",
          some "O(n)", some "O(n)", some ["h1"]⟩]
      = (Except.ok [[]], ["code text\nProblem: Two Sum\nPattern: hash_map"]) ∧
    ["code text\nProblem: Two Sum\nPattern: hash_map"]
      = [(⟨some "Two Sum", some "hash_map", some "code text",
           some "O(n)", some "O(n)", some ["h1"]⟩ : SolRec)].map
          (fun r => specContextText (r.code.getD "") r.problem r.approach) :=
  ⟨by rfl,
   claim_C7_context_convention.2.1 (fun _ => ([] : Vec))
     [⟨some "Two Sum", some "hash_map", some "code text",
       some "O(n)", some "O(n)", some ["h1"]⟩]
     [[]] ["code text\nProblem: Two Sum\nPattern: hash_map"] (by rfl)⟩

/-- Claim C8, counterexample to skip-and-continue: a corpus whose second
record lacks the code key aborts the whole build with a KeyError after
embedding only the first record; the malformed record is not skipped and
no partial corpus is returned. -/
theorem claim_C8_counterexample :
    buildCorpus (fun _ => ([] : Vec))
      [⟨some "P1", some "A1", some "good code", some "T1", some "S1", some ["h"]⟩,
       ⟨some "P2", some "A2", none, none, none, none⟩]
      = (Except.error "KeyError: code", ["good code\nProblem: P1\nPattern: A1"]) := by
  rfl

/-- Claim C8 as amended: a record missing any of the keys the build reads
(code, problem, approach) anywhere in the corpus makes the whole
initialization abort with an error outcome; there is no per-record
recovery, so a single malformed record is fatal to startup
(initialization is not fatal only when the embedding function is
unavailable). -/
theorem claim_C8_amended (embedF : String → Vec) (sols : List SolRec) (s : SolRec)
    (hmal : s.code = none ∨ s.problem = none ∨ s.approach = none) :
    s ∈ sols → isErr (buildCorpus embedF sols).1 = true := by
  induction sols with
  | nil => intro hmem; cases hmem
  | cons t rest ih =>
    intro hmem
    rcases List.mem_cons.mp hmem with rfl | hmem2
    · rw [buildCorpus]
      rcases ht : s.code with _ | c
      · rfl
      · rcases hp : s.problem with _ | p
        · rfl
        · rcases ha : s.approach with _ | a
          · rfl
          · rcases hmal with h0 | h0 | h0
            · simp [h0] at ht
            · simp [h0] at hp
            · simp [h0] at ha
    · rw [buildCorpus]
      rcases ht : t.code with _ | c
      · rfl
      · rcases hp : t.problem with _ | p
        · rfl
        · rcases ha : t.approach with _ | a
          · rfl
          · have hrec := ih hmem2
            rcases hb : buildCorpus embedF rest with ⟨resr, ts⟩
            rw [hb] at hrec
            rcases resr with e | vs
            · rfl
            · simp [isErr] at hrec

/-- Claim C8 amended, witness at a concrete input: the singleton corpus
whose only record lacks the code key is in the corpus list, its code key
is absent, and the build aborts with an error outcome. -/
theorem claim_C8_amended_witness :
    ((⟨some "P", some "A", none, none, none, none⟩ : SolRec).code = none ∨
     (⟨some "P", some "A", none, none, none, none⟩ : SolRec).problem = none ∨
     (⟨some "P", some "A", none, none, none, none⟩ : SolRec).approach = none) ∧
    (⟨some "P", some "A", none, none, none, none⟩ : SolRec)
        ∈ [(⟨some "P", some "A", none, none, none, none⟩ : SolRec)] ∧
    isErr (buildCorpus (fun _ => ([] : Vec))
      [⟨some "P", some "A", none, none, none, none⟩]).1 = true :=
  ⟨Or.inl rfl, List.mem_cons_self _ _,
   claim_C8_amended (fun _ => ([] : Vec))
     [⟨some "P", some "A", none, none, none, none⟩]
     ⟨some "P", some "A", none, none, none, none⟩ (Or.inl rfl)
     (List.mem_cons_self _ _)⟩

/-- If every continuation value is an error then the bind is an error. -/
theorem isErr_bind {α γ : Type} (x : Except String α) (f : α → Except String γ)
    (h : ∀ a, isErr (f a) = true) : isErr (x >>= f) = true := by
  cases x with
  | error e => rfl
  | ok a => exact h a

/-- Claim C2 as amended: on a submission whose parse fails, get_hint does
not short-circuit: it still passes one text to the embedding function
(with Pattern line invalid) and performs one similarity search, and then
ends in an error outcome (an index or key lookup failure while reading
the best match and the absent complexity_estimate key), so no hints value
is ever produced. -/
theorem claim_C2_amended (embedF : String → Vec) (eng : Engine) (user : UserCode)
    (pn : Option String) (msg : String) (h : user.parsed = Except.error msg) :
    isErr (HintAIEngine.get_hint embedF eng user pn).1 = true ∧
    (HintAIEngine.get_hint embedF eng user pn).2
      = { embedded := [combinedText user.text pn (some "invalid")], searches := 1 } := by
  constructor
  · simp only [HintAIEngine.get_hint, h]
    apply isErr_bind
    intro m0
    apply isErr_bind
    intro bs
    rfl
  · simp only [HintAIEngine.get_hint, h]
    rfl

/-- Claim C2 amended, witness at a concrete input: a submission with a
parse error satisfies the hypothesis, and get_hint on it embeds once,
searches once, and ends in an error outcome. -/
theorem claim_C2_amended_witness :
    (⟨"oops(", Except.error "boom"⟩ : UserCode).parsed = Except.error "boom" ∧
    (isErr (HintAIEngine.get_hint (fun _ => ([] : Vec)) ⟨[], []⟩
        ⟨"oops(", Except.error "boom"⟩ none).1 = true ∧
     (HintAIEngine.get_hint (fun _ => ([] : Vec)) ⟨[], []⟩
        ⟨"oops(", Except.error "boom"⟩ none).2
       = { embedded := [combinedText "oops(" none (some "invalid")], searches := 1 }) :=
  ⟨rfl,
   claim_C2_amended (fun _ => ([] : Vec)) ⟨[], []⟩
     ⟨"oops(", Except.error "boom"⟩ none "boom" rfl⟩

/-- Claim C2, counterexample to the claimed short-circuit: at a concrete
submission whose parse fails, the get_hint trace records one text passed
to the embedding function and one similarity search performed, so an
embedding is computed and a search does happen before the call fails. -/
theorem claim_C2_counterexample :
    (HintAIEngine.get_hint (fun _ => ([] : Vec)) ⟨[], []⟩
        ⟨"if (", Except.error "unexpected EOF"⟩ none).2
      = { embedded := ["if (\nPattern: invalid"], searches := 1 } ∧
    isErr (HintAIEngine.get_hint (fun _ => ([] : Vec)) ⟨[], []⟩
        ⟨"if (", Except.error "unexpected EOF"⟩ none).1 = true := by
  constructor <;> rfl

end HintAI

